import Mathlib

/-!
Verification of the BettorDay chat handler core (src/api/chat.py).

Shallow embedding of the numeric utilities, the hit-rate analyzer, the
`calculate_prop_value` / `find_value_props` tool branches, the
`get_super_bowl_event` accessor and the `do_POST` tool-use loop, together
with theorems settling the specification claims.

Conventions of the embedding:
* Python floats are modelled as exact rationals (`ℚ`); Python's `round`
  (banker's rounding, round-half-to-even) is modelled by `pyRound`.
* Python `None` is `Option.none`; an uncaught Python exception inside a
  tool branch is modelled by an explicit error constructor.
* Python dicts whose concrete key sets matter (`PLAYER_GAME_LOGS` entries,
  odds-API event objects) are modelled by structures with `Option` fields
  or by association lists of string pairs.
* The module-level `PLAYER_GAME_LOGS` table is passed to the tool
  functions as an explicit argument (`table`), so theorems quantify over
  it; the concrete rows used by witnesses are transcribed verbatim from
  the source.
-/

namespace BettorDay

/-! ## Odds-probability math (src/api/chat.py:1094-1110) -/

/-- Python's built-in `round` on a rational: round half to even
(banker's rounding), as used by `round(...)` in the source. -/
def pyRound (q : ℚ) : ℤ :=
  let f := ⌊q⌋
  if q - f < 1/2 then f
  else if 1/2 < q - f then f + 1
  else if f % 2 = 0 then f else f + 1

/-- Python's `round(x, 1)`: round to one decimal place. -/
def round1 (q : ℚ) : ℚ := (pyRound (q * 10) : ℚ) / 10

/-- Source `american_to_prob` (src/api/chat.py:1096-1099): convert American odds
to implied probability. -/
def american_to_prob (odds : ℤ) : ℚ :=
  if odds < 0 then (|odds| : ℚ) / ((|odds| : ℚ) + 100)
  else 100 / ((odds : ℚ) + 100)

/-- Source `prob_to_american` (src/api/chat.py:1101-1110): convert probability to
fair American odds; `none` models Python's `None`. -/
def prob_to_american (prob : ℚ) : Option ℤ :=
  if prob ≤ 0 then none
  else if 1 ≤ prob then none
  else if 1/2 ≤ prob then some (pyRound (-100 * prob / (1 - prob)))
  else some (pyRound (100 * (1 - prob) / prob))

/-- Source `format_american_odds` (src/api/chat.py:1112-1116). -/
def format_american_odds : Option ℤ → String
  | none => "N/A"
  | some odds => if odds > 0 then "+" ++ toString odds else toString odds

/-! ## Player game logs and stat extraction (src/api/chat.py:1118-1191) -/

/-- One entry of `PLAYER_GAME_LOGS`: a Python dict with optional
`'pass'`/`'rush'`/`'rec'` stat strings (fields `passStat`/`rushStat`/
`recStat`; `rec` itself is reserved in Lean).  The `'wk'` and `'opp'`
keys are never read by the analyzer and are omitted. -/
structure GameLog where
  passStat : Option String := none
  rushStat : Option String := none
  recStat : Option String := none
deriving DecidableEq, Repr

/-- Test `charsStartWith hay needle`: `needle` is an initial segment of `hay`. -/
def charsStartWith : List Char → List Char → Bool
  | _, [] => true
  | [], _ :: _ => false
  | a :: as, b :: bs => a == b && charsStartWith as bs

/-- Test `charsContain hay needle`: `needle` occurs contiguously in `hay`. -/
def charsContain : List Char → List Char → Bool
  | [], needle => needle.isEmpty
  | a :: as, needle => charsStartWith (a :: as) needle || charsContain as needle

/-- Python's `sub in s` substring test. -/
def containsSubstr (s sub : String) : Bool :=
  charsContain s.data sub.data

/-- Python's `s.split(sep)` for a one-character separator, on char lists.
(The split operations of the core library are not kernel-reducible, so the
Python string operations are modelled directly on `List Char`.) -/
def splitChars (sep : Char) : List Char → List (List Char)
  | [] => [[]]
  | c :: cs =>
    let r := splitChars sep cs
    if c == sep then [] :: r
    else
      match r with
      | h :: t => (c :: h) :: t
      | [] => [[c]]

/-- Python's `s.split(sep)` for a one-character separator. -/
def pySplit (s : String) (sep : Char) : List String :=
  (splitChars sep s.data).map String.mk

/-- Python's `s.strip()`. -/
def pyStrip (s : String) : String :=
  String.mk (((s.data.dropWhile Char.isWhitespace).reverse.dropWhile
    Char.isWhitespace).reverse)

/-- Fuel-indexed worker for Python's `s.replace(pat, rep)`; fuel
`s.length` always suffices since each step consumes a character. -/
def replaceChars (pat rep : List Char) : Nat → List Char → List Char
  | 0, s => s
  | _ + 1, [] => []
  | n + 1, c :: cs =>
    if !pat.isEmpty && charsStartWith (c :: cs) pat then
      rep ++ replaceChars pat rep n (List.drop (pat.length - 1) cs)
    else c :: replaceChars pat rep n cs

/-- Python's `s.replace(pat, rep)`. -/
def pyReplace (s pat rep : String) : String :=
  String.mk (replaceChars pat.data rep.data s.data.length s.data)

/-- Digit-string accumulator for `pyToInt`. -/
def digitsToNat : List Char → Nat → Option Nat
  | [], acc => some acc
  | c :: cs, acc =>
    if c.isDigit then digitsToNat cs (acc * 10 + (c.toNat - '0'.toNat)) else none

/-- Python's `int(s)` on an already-stripped string: optional `-` sign then
decimal digits; `none` models the `ValueError` Python would raise. -/
def pyToInt (s : String) : Option Int :=
  match s.data with
  | [] => none
  | '-' :: rest =>
    match rest with
    | [] => none
    | _ => (digitsToNat rest 0).map fun n => -(n : Int)
  | cs => (digitsToNat cs 0).map fun n => (n : Int)

/-- Python's `s.lower()`. -/
def pyLower (s : String) : String := String.mk (s.data.map Char.toLower)

/-- Source `parse_player_stat` (src/api/chat.py:1118-1162): extract a specific
stat from a player's game log.  Python raises `ValueError`/`IndexError`
on a malformed stat string; no claim concerns malformed strings, so a
parse failure is modelled as `none`, the same value Python returns when
the stat category is absent or the stat type is unrecognized. -/
def parse_player_stat (log : GameLog) (stat_type : String) : Option Int :=
  if stat_type = "pass_yds" then
    log.passStat.bind fun s => ((pySplit s ',').get? 1).bind fun p =>
      pyToInt (pyReplace (pyStrip p) " yds" "")
  else if stat_type = "pass_tds" then
    log.passStat.bind fun s => ((pySplit s ',').get? 2).bind fun p =>
      pyToInt (pyReplace (pyStrip p) " TD" "")
  else if stat_type = "pass_attempts" then
    log.passStat.bind fun s => ((pySplit s ',').get? 0).bind fun comp_att =>
      ((pySplit comp_att '/').get? 1).bind fun p => pyToInt p
  else if stat_type = "completions" then
    log.passStat.bind fun s => ((pySplit s ',').get? 0).bind fun comp_att =>
      ((pySplit comp_att '/').get? 0).bind fun p => pyToInt p
  else if stat_type = "interceptions" then
    log.passStat.bind fun s => ((pySplit s ',').get? 3).bind fun p =>
      pyToInt (pyReplace (pyStrip p) " INT" "")
  else if stat_type = "rush_yds" then
    log.rushStat.bind fun s => ((pySplit s ',').get? 1).bind fun p =>
      pyToInt (pyReplace (pyStrip p) " yds" "")
  else if stat_type = "rush_att" then
    log.rushStat.bind fun s => ((pySplit s ',').get? 0).bind fun p =>
      pyToInt (pyReplace (pyStrip p) " att" "")
  else if stat_type = "receptions" then
    log.recStat.bind fun s => ((pySplit s ',').get? 0).bind fun p =>
      pyToInt (pyReplace (pyStrip p) " rec" "")
  else if stat_type = "rec_yds" then
    log.recStat.bind fun s => ((pySplit s ',').get? 1).bind fun p =>
      pyToInt (pyReplace (pyStrip p) " yds" "")
  else if stat_type = "targets" then
    log.recStat.bind fun s => ((pySplit s '(').get? 1).bind fun tgt =>
      pyToInt (pyReplace (pyReplace tgt " tgt)" "") "tgt)" "")
  else none

/-- The dict built by `calculate_hit_rate` on its success path
(src/api/chat.py:1179-1190). -/
structure HitRate where
  values : List Int
  games : Nat
  avg : ℚ
  over_count : Nat
  under_count : Nat
  over_pct : ℚ
  under_pct : ℚ
  over_fair_odds : Option ℤ
  under_fair_odds : Option ℤ
deriving DecidableEq, Repr

/-- Result of `calculate_hit_rate`.  On empty data the Python function
executes `return None, None, None, None`, i.e. it returns a 4-tuple of
`None`s — crucially NOT `None` itself; `noData` models that tuple. -/
inductive HitRateResult
  | noData
  | ok (h : HitRate)
deriving DecidableEq, Repr

/-- Source `calculate_hit_rate` (src/api/chat.py:1164-1191): how often a player
hits over a line. -/
def calculate_hit_rate (player_logs : List GameLog) (stat_type : String)
    (line : ℚ) : HitRateResult :=
  let values := player_logs.filterMap fun log => parse_player_stat log stat_type
  if values.isEmpty then .noData
  else
    let over_count := values.countP fun v => (v : ℚ) > line
    let under_count := values.length - over_count
    let over_pct : ℚ := (over_count : ℚ) / (values.length : ℚ)
    let under_pct : ℚ := (under_count : ℚ) / (values.length : ℚ)
    let avg : ℚ := ((values.sum : ℤ) : ℚ) / (values.length : ℚ)
    .ok
      { values := values
        games := values.length
        avg := round1 avg
        over_count := over_count
        under_count := under_count
        over_pct := round1 (over_pct * 100)
        under_pct := round1 (under_pct * 100)
        over_fair_odds := if over_pct > 0 then prob_to_american over_pct else none
        under_fair_odds := if under_pct > 0 then prob_to_american under_pct else none }

/-! ## Injury exclusion set (src/api/chat.py:102-109) -/

/-- One entry of the `INJURED_PLAYERS` list. -/
structure InjuredPlayer where
  name : String
  team : String
  status : String
  injury : String
deriving DecidableEq, Repr

/-- Source `INJURED_PLAYERS` (src/api/chat.py:105-107). -/
def INJURED_PLAYERS : List InjuredPlayer :=
  [{ name := "Zach Charbonnet", team := "seahawks", status := "OUT",
     injury := "Ankle - WILL NOT PLAY" }]

/-- Source `INJURED_PLAYER_NAMES` (src/api/chat.py:108): lower-cased names. -/
def INJURED_PLAYER_NAMES : List String :=
  INJURED_PLAYERS.map fun p => pyLower p.name

/-- Python's `", ".join(keys)`. -/
def joinComma : List String → String
  | [] => ""
  | [s] => s
  | s :: rest => s ++ ", " ++ joinComma rest

/-! ## The calculate_prop_value tool branch (src/api/chat.py:1910-1988) -/

/-- The three-way value classification of a side's edge
(src/api/chat.py:1964-1978): `value` for edge > 5, `bad` for
edge < -5, `fair` otherwise. -/
inductive EdgeClass
  | value
  | bad
  | fair
deriving DecidableEq, Repr

/-- Branch structure of the `over_edge > 5` / `elif over_edge < -5` /
`else` chain in the source. -/
def classify_edge (edge : ℚ) : EdgeClass :=
  if edge > 5 then .value else if edge < -5 then .bad else .fair

/-- The player-matching loop of the calculate_prop_value branch
(src/api/chat.py:1917-1928): first substring match in key order, with
`jsn`/`kwiii` nickname handling. -/
def match_player (player_name : String) : List String → Option String
  | [] => none
  | name :: rest =>
    if containsSubstr (pyLower name) player_name ||
        containsSubstr player_name (pyLower name) then some name
    else if containsSubstr player_name "jsn" &&
        containsSubstr (pyLower name) "smith-njigba" then some name
    else if containsSubstr player_name "kwiii" &&
        containsSubstr (pyLower name) "walker" then some name
    else match_player player_name rest

/-- The quantities the calculate_prop_value branch computes before
rendering text (src/api/chat.py:1934-1946). -/
structure PropReport where
  player : String
  stat_type : String
  line : ℚ
  book_odds : ℤ
  is_injured : Bool
  stats : HitRate
  book_implied : ℚ
  over_edge : ℚ
  under_edge : ℚ
deriving DecidableEq, Repr

/-- Outcome of the calculate_prop_value branch.  `typeError` models the
uncaught Python `TypeError`: on empty data `calculate_hit_rate` returns
the 4-tuple `(None, None, None, None)`, the guard `analysis is None` is
False, and `analysis["games"]` subscripts a tuple with a string. -/
inductive PropValueResult
  | notFound (msg : String)
  | noDataMsg (msg : String)
  | typeError
  | report (r : PropReport)
deriving DecidableEq, Repr

/-- The `calculate_prop_value` branch of `execute_tool`
(src/api/chat.py:1910-1946) up to text rendering (`format_prop_value`).
`table` is the module-level `PLAYER_GAME_LOGS` dict, passed explicitly.
The `noDataMsg` branch mirrors the source's `analysis["games"] == 0`
test; it is unreachable because a successful analysis has at least one
extracted value. -/
def calculate_prop_value (table : List (String × List GameLog))
    (player_name0 stat_type : String) (line : ℚ) (book_odds : ℤ) : PropValueResult :=
  let player_name := pyLower player_name0
  match match_player player_name (table.map Prod.fst) with
  | none => .notFound ("Player '" ++ player_name ++ "' not found. Available players: "
      ++ joinComma (table.map Prod.fst))
  | some matched_player =>
    let is_injured := INJURED_PLAYER_NAMES.contains (pyLower matched_player)
    let logs := (table.lookup matched_player).getD []
    match calculate_hit_rate logs stat_type line with
    | .noData => .typeError
    | .ok analysis =>
      if analysis.games = 0 then
        .noDataMsg ("No " ++ stat_type ++ " data found for " ++ matched_player)
      else
        let book_implied := american_to_prob book_odds * 100
        .report { player := matched_player, stat_type := stat_type, line := line
                  book_odds := book_odds, is_injured := is_injured, stats := analysis
                  book_implied := book_implied
                  over_edge := analysis.over_pct - book_implied
                  under_edge := analysis.under_pct - book_implied }

/-- Tool-argument handling of the branch: `book_odds` defaults to `-110`
when the model omits it (src/api/chat.py:1914, `tool_input.get`). -/
def run_calculate_prop_value (table : List (String × List GameLog))
    (player_name stat_type : String) (line : ℚ) (book_odds : Option ℤ) : PropValueResult :=
  calculate_prop_value table player_name stat_type line (book_odds.getD (-110))

/-- Display form of a rational in rendered lines (display only; no claim
inspects numeric formatting). -/
def ratStr (q : ℚ) : String := toString q

/-- The warning line emitted for injured players
(src/api/chat.py:1948-1949); the emoji prefix is dropped. -/
def warning_line : String := "**WARNING: Player is OUT - Do not bet**"

/-- Text rendering of the calculate_prop_value branch
(src/api/chat.py:1946-1986), one list element per `result +=`.  The
source interleaves computing and formatting; the embedding renders from
the computed `PropReport`, preserving line order and the
classification-dependent lines. -/
def format_prop_value (r : PropReport) : List String :=
  ["**" ++ r.player ++ " - " ++ r.stat_type ++ " Prop Analysis**"]
  ++ (if r.is_injured then [warning_line] else [])
  ++ ["Line: " ++ ratStr r.line,
      "**HISTORICAL DATA (" ++ toString r.stats.games ++ " games):**",
      "Season Average: " ++ ratStr r.stats.avg,
      "Hit OVER " ++ ratStr r.line ++ ": " ++ toString r.stats.over_count ++ "/"
        ++ toString r.stats.games ++ " times (" ++ ratStr r.stats.over_pct ++ "%)",
      "Hit UNDER " ++ ratStr r.line ++ ": " ++ toString r.stats.under_count ++ "/"
        ++ toString r.stats.games ++ " times (" ++ ratStr r.stats.under_pct ++ "%)",
      "**TRUE ODDS (based on history):**",
      "OVER fair odds: " ++ format_american_odds r.stats.over_fair_odds,
      "UNDER fair odds: " ++ format_american_odds r.stats.under_fair_odds,
      "**VALUE ANALYSIS vs " ++ format_american_odds (some r.book_odds) ++ " ("
        ++ ratStr r.book_implied ++ "% implied):**"]
  ++ (match classify_edge r.over_edge with
      | .value => ["**OVER has VALUE**: +" ++ ratStr r.over_edge ++ "% edge",
                   "True prob " ++ ratStr r.stats.over_pct ++ "% vs implied "
                     ++ ratStr r.book_implied ++ "%"]
      | .bad => ["OVER is BAD: " ++ ratStr r.over_edge ++ "% edge (avoid)"]
      | .fair => ["OVER is FAIR: " ++ ratStr r.over_edge ++ "% edge"])
  ++ (match classify_edge r.under_edge with
      | .value => ["**UNDER has VALUE**: +" ++ ratStr r.under_edge ++ "% edge",
                   "True prob " ++ ratStr r.stats.under_pct ++ "% vs implied "
                     ++ ratStr r.book_implied ++ "%"]
      | .bad => ["UNDER is BAD: " ++ ratStr r.under_edge ++ "% edge (avoid)"]
      | .fair => ["UNDER is FAIR: " ++ ratStr r.under_edge ++ "% edge"])
  ++ (let recent_values :=
        if r.stats.values.length ≥ 5 then
          r.stats.values.drop (r.stats.values.length - 5)
        else r.stats.values
      let recent_over := recent_values.countP fun v => (v : ℚ) > r.line
      ["**RECENT TREND (last " ++ toString recent_values.length ++ " games):**",
       "Values: " ++ toString recent_values,
       "Over " ++ ratStr r.line ++ ": " ++ toString recent_over ++ "/"
         ++ toString recent_values.length ++ " times"])

/-! ## The find_value_props tool branch (src/api/chat.py:1989-2071) -/

/-- The hardcoded candidate-line grid `prop_lines`
(src/api/chat.py:1994-2001); unknown stats map to `[]`
(`prop_lines.get(stat, [])`). -/
def prop_lines (stat : String) : List ℚ :=
  if stat = "pass_yds" then [199.5, 224.5, 249.5, 274.5, 299.5]
  else if stat = "pass_tds" then [0.5, 1.5, 2.5]
  else if stat = "completions" then [17.5, 19.5, 21.5, 23.5]
  else if stat = "rush_yds" then [39.5, 49.5, 59.5, 69.5, 79.5]
  else if stat = "receptions" then [3.5, 4.5, 5.5, 6.5, 7.5]
  else if stat = "rec_yds" then [49.5, 59.5, 69.5, 79.5, 99.5]
  else []

/-- Key list `list(prop_lines.keys())` in source order. -/
def prop_lines_keys : List String :=
  ["pass_yds", "pass_tds", "completions", "rush_yds", "receptions", "rec_yds"]

/-- One entry appended to `value_props` (src/api/chat.py:2027-2050). -/
structure ValueProp where
  player : String
  stat : String
  line : ℚ
  side : String
  hit_rate : ℚ
  edge : ℚ
  fair_odds : Option ℤ
  games : Nat
  avg : ℚ
deriving DecidableEq, Repr

/-- Innermost loop of the scan, over candidate lines for one player and
stat (src/api/chat.py:2021-2050).  On a `noData` analysis the Python
guard `analysis is None or analysis["games"] < 5` subscripts the
4-tuple and raises `TypeError`, modelled as `Except.error ()`. -/
def scan_lines (player_name : String) (logs : List GameLog) (stat : String)
    (min_edge book_implied : ℚ) : List ℚ → Except Unit (List ValueProp)
  | [] => .ok []
  | line :: rest =>
    match calculate_hit_rate logs stat line with
    | .noData => .error ()
    | .ok analysis =>
      if analysis.games < 5 then
        scan_lines player_name logs stat min_edge book_implied rest
      else
        let over_edge := analysis.over_pct - book_implied
        let under_edge := analysis.under_pct - book_implied
        let here :=
          (if over_edge ≥ min_edge then
            [{ player := player_name, stat := stat, line := line, side := "OVER"
               hit_rate := analysis.over_pct, edge := over_edge
               fair_odds := analysis.over_fair_odds, games := analysis.games
               avg := analysis.avg }]
          else [])
          ++ (if under_edge ≥ min_edge then
            [{ player := player_name, stat := stat, line := line, side := "UNDER"
               hit_rate := analysis.under_pct, edge := under_edge
               fair_odds := analysis.under_fair_odds, games := analysis.games
               avg := analysis.avg }]
          else [])
        (scan_lines player_name logs stat min_edge book_implied rest).map
          fun restProps => here ++ restProps

/-- Middle loop over the stats to check (src/api/chat.py:2020). -/
def scan_stats (player_name : String) (logs : List GameLog)
    (min_edge book_implied : ℚ) : List String → Except Unit (List ValueProp)
  | [] => .ok []
  | stat :: rest =>
    (scan_lines player_name logs stat min_edge book_implied (prop_lines stat)).bind
      fun here => (scan_stats player_name logs min_edge book_implied rest).map
        fun restProps => here ++ restProps

/-- Outer loop over `PLAYER_GAME_LOGS.items()`, skipping injured players
(src/api/chat.py:2014-2017). -/
def scan_players (stats_to_check : List String) (min_edge book_implied : ℚ) :
    List (String × List GameLog) → Except Unit (List ValueProp)
  | [] => .ok []
  | (player_name, logs) :: rest =>
    if INJURED_PLAYER_NAMES.contains (pyLower player_name) then
      scan_players stats_to_check min_edge book_implied rest
    else
      (scan_stats player_name logs min_edge book_implied stats_to_check).bind
        fun here => (scan_players stats_to_check min_edge book_implied rest).map
          fun restProps => here ++ restProps

/-- Outcome of the find_value_props branch. -/
inductive FindValueResult
  | unknownStat (msg : String)
  | typeError
  | listing (props : List ValueProp)
deriving DecidableEq, Repr

/-- The `stats_to_check` resolution of the find_value_props branch
(src/api/chat.py:2003-2009): all grid keys for `"all"`, a singleton for
a known stat, empty otherwise. -/
def stats_to_check (stat_type : String) : List String :=
  if stat_type = "all" then prop_lines_keys
  else if prop_lines_keys.contains stat_type then [stat_type] else []

/-- The `find_value_props` branch of `execute_tool`
(src/api/chat.py:1989-2071): resolve the stats to check, scan all
players, sort by edge descending (`value_props.sort(key=..., reverse=True)`,
a stable descending sort, rendered here as the equivalent stable
`insertionSort`).  The rendered text displays `props.take 15` of the
sorted listing. -/
def find_value_props (table : List (String × List GameLog))
    (stat_type0 : String) (min_edge : ℚ) : FindValueResult :=
  let stat_type := pyLower stat_type0
  if (stats_to_check stat_type).isEmpty then
    .unknownStat ("Unknown stat type: " ++ stat_type ++ ". Available: "
      ++ joinComma prop_lines_keys)
  else
    let book_implied := american_to_prob (-110) * 100
    match scan_players (stats_to_check stat_type) min_edge book_implied table with
    | .error _ => .typeError
    | .ok value_props => .listing (value_props.insertionSort fun a b => b.edge ≤ a.edge)

/-- Tool-argument handling of the branch (src/api/chat.py:1990-1991):
`stat_type` defaults to `"all"`, `min_edge` to `10`. -/
def run_find_value_props (table : List (String × List GameLog))
    (stat_type : Option String) (min_edge : Option ℚ) : FindValueResult :=
  find_value_props table (stat_type.getD "all") (min_edge.getD 10)

/-! ## Super Bowl event lookup (src/api/chat.py:95-161) -/

/-- A Python dict with string keys and values, as an association list;
models the event objects from the odds API and the hardcoded fallback. -/
def PyDict := List (String × String)
deriving DecidableEq, Repr

/-- Python's `d.get(k, dflt)`. -/
def dget (d : PyDict) (k dflt : String) : String :=
  ((List.lookup k d).getD dflt : String)

/-- Python's `k in d`. -/
def hasKey (d : PyDict) (k : String) : Bool :=
  (List.lookup k d).isSome

/-- Truthiness of a Python dict: `not event` iff the dict is empty. -/
def dictIsEmpty (d : PyDict) : Bool :=
  match d with
  | [] => true
  | _ :: _ => false

/-- Module constants SUPER_BOWL_EVENT_ID / ..._HOME_TEAM / ..._AWAY_TEAM /
..._DATE (src/api/chat.py:95-98). -/
def SUPER_BOWL_EVENT_ID : String := "b64e3587d7a4cf01a568e7150a2a1aec"

def SUPER_BOWL_HOME_TEAM : String := "New England Patriots"

def SUPER_BOWL_AWAY_TEAM : String := "Seattle Seahawks"

def SUPER_BOWL_DATE : String := "2026-02-08T23:30:00Z"

/-- The hardcoded fallback event dict (src/api/chat.py:156-161). -/
def fallback_event : PyDict :=
  [("id", SUPER_BOWL_EVENT_ID), ("home_team", SUPER_BOWL_HOME_TEAM),
   ("away_team", SUPER_BOWL_AWAY_TEAM), ("commence_time", SUPER_BOWL_DATE)]

/-- What `get_nfl_events()` can return (src/api/chat.py:115-139): a list
of event dicts on HTTP 200, otherwise an `{"error": ...}` dict. -/
inductive EventsResult
  | errorDict (msg : String)
  | events (l : List PyDict)

/-- The matchup test of the loop in `get_super_bowl_event`
(src/api/chat.py:146-151): the joined lower-cased team names contain a
Seattle marker and a New England marker. -/
def sb_team_match (e : PyDict) : Bool :=
  let team_str := pyLower (dget e "home_team" "") ++ " " ++ pyLower (dget e "away_team" "")
  (containsSubstr team_str "seattle" || containsSubstr team_str "seahawk") &&
  (containsSubstr team_str "new england" || containsSubstr team_str "patriot")

/-- Source `get_super_bowl_event` (src/api/chat.py:141-161): first matching
event from the fetched list, else the hardcoded fallback (also when the
fetch failed, i.e. `events` is not a list). -/
def get_super_bowl_event (res : EventsResult) : PyDict :=
  match res with
  | .events l =>
    match l.find? sb_team_match with
    | some e => e
    | none => fallback_event
  | .errorDict _ => fallback_event

/-- The guard of the get_live_game_odds branch of `execute_tool`
(src/api/chat.py:1427-1430): `if not event: return "Unable to find ..."`;
`some msg` is the early error return, `none` means the branch proceeds. -/
def sb_event_guard (res : EventsResult) : Option String :=
  if dictIsEmpty (get_super_bowl_event res) then
    some "Unable to find Super Bowl event. The game may not be listed yet."
  else none

/-! ## The conversation orchestration loop (src/api/chat.py:2255-2289) -/

/-- Stop reason of one model response; `tool_use` keeps the `do_POST`
loop running, anything else ends it. -/
inductive StopReason
  | tool_use
  | end_turn
deriving DecidableEq, Repr

/-- The `while response.stop_reason == "tool_use"` loop of
`handler.do_POST` (src/api/chat.py:2255-2285), abstracted over the
model: `model i` is the stop reason of the model's `i`-th response
(tool execution does not influence the loop condition).  The runner is
fuel-indexed: `some i` means the loop reached a non-tool response at
call `i` (and `do_POST` returns that response's text); `none` means the
loop is still running after `fuel` model calls. -/
def tool_loop (model : Nat → StopReason) : Nat → Nat → Option Nat
  | _, 0 => none
  | i, fuel + 1 =>
    match model i with
    | .end_turn => some i
    | .tool_use => tool_loop model (i + 1) fuel

/-- A scripted model that requests a tool on every turn. -/
def always_tool_model : Nat → StopReason := fun _ => .tool_use

/-! ## Concrete data used by examples and witnesses -/

/-- The `"Sam Darnold"` rows of `PLAYER_GAME_LOGS`
(src/api/chat.py:630-649), transcribed verbatim; no row has a `'rec'`
key. -/
def sam_darnold_logs : List GameLog := [
  { passStat := some "16/23, 150 yds, 0 TD, 0 INT", rushStat := some "2 att, 14 yds, 0 TD" },
  { passStat := some "22/33, 295 yds, 2 TD, 2 INT" },
  { passStat := some "14/18, 218 yds, 2 TD, 0 INT" },
  { passStat := some "18/26, 242 yds, 1 TD, 0 INT", rushStat := some "1 att, 24 yds, 0 TD" },
  { passStat := some "28/34, 341 yds, 4 TD, 1 INT" },
  { passStat := some "16/27, 295 yds, 2 TD, 0 INT", rushStat := some "4 att, 2 yds, 0 TD" },
  { passStat := some "17/31, 213 yds, 1 TD, 1 INT", rushStat := some "3 att, 1 yds, 0 TD" },
  { passStat := some "21/24, 330 yds, 4 TD, 1 INT" },
  { passStat := some "10/12, 178 yds, 1 TD, 1 INT", rushStat := some "3 att, -2 yds, 0 TD" },
  { passStat := some "29/44, 279 yds, 0 TD, 4 INT", rushStat := some "2 att, 11 yds, 0 TD" },
  { passStat := some "16/26, 244 yds, 2 TD, 0 INT", rushStat := some "1 att, -1 yds, 0 TD" },
  { passStat := some "14/26, 128 yds, 0 TD, 0 INT" },
  { passStat := some "20/30, 249 yds, 3 TD, 1 INT", rushStat := some "3 att, 23 yds, 0 TD" },
  { passStat := some "22/36, 271 yds, 0 TD, 0 INT", rushStat := some "4 att, 5 yds, 0 TD" },
  { passStat := some "22/34, 270 yds, 2 TD, 2 INT", rushStat := some "3 att, 7 yds, 0 TD" },
  { passStat := some "18/27, 147 yds, 1 TD, 1 INT", rushStat := some "3 att, 2 yds, 0 TD" },
  { passStat := some "20/26, 198 yds, 0 TD, 0 INT", rushStat := some "6 att, 9 yds, 0 TD" },
  { passStat := some "12/17, 124 yds, 1 TD, 0 INT" },
  { passStat := some "25/36, 346 yds, 3 TD, 0 INT", rushStat := some "3 att, 9 yds, 0 TD" }]

/-- Five game logs whose passing-yard values are the spec's
hit-rate example `[200, 250, 300, 180, 400]` (spec §8). -/
def example_logs : List GameLog := [
  { passStat := some "20/30, 200 yds, 1 TD, 0 INT" },
  { passStat := some "22/31, 250 yds, 1 TD, 0 INT" },
  { passStat := some "25/35, 300 yds, 2 TD, 1 INT" },
  { passStat := some "15/25, 180 yds, 0 TD, 1 INT" },
  { passStat := some "30/40, 400 yds, 3 TD, 0 INT" }]

/-- 20 games with 13 passing-yard values over 249.5 (65%). -/
def logs_65 : List GameLog :=
  List.replicate 13 { passStat := some "20/30, 300 yds, 2 TD, 0 INT" }
  ++ List.replicate 7 { passStat := some "20/30, 200 yds, 1 TD, 0 INT" }

/-- 20 games with 11 passing-yard values over 249.5 (55%). -/
def logs_55 : List GameLog :=
  List.replicate 11 { passStat := some "20/30, 300 yds, 2 TD, 0 INT" }
  ++ List.replicate 9 { passStat := some "20/30, 200 yds, 1 TD, 0 INT" }

/-- A single rushing game log for the injured player, used by witnesses. -/
def charbonnet_logs : List GameLog := [{ rushStat := some "10 att, 50 yds, 0 TD" }]

/-- Five identical rushing logs clearing every candidate line. -/
def rush_logs_5 : List GameLog :=
  List.replicate 5 { rushStat := some "20 att, 100 yds, 1 TD" }

/-! ## Projection helpers used in closed statements -/

/-- Projection `over_count` of a hit-rate analysis, when one was produced. -/
def over_count_of : HitRateResult → Option Nat
  | .noData => none
  | .ok h => some h.over_count

/-- Classification of the over-side edge of a prop-value report, when
one was produced. -/
def over_class_of : PropValueResult → Option EdgeClass
  | .report r => some (classify_edge r.over_edge)
  | _ => none

/-- The event list carried by an `EventsResult` (empty on error). -/
def events_of : EventsResult → List PyDict
  | .events l => l
  | .errorDict _ => []

/-- One-player table realizing a 65% over percentage. -/
def table_65 : List (String × List GameLog) := [("Test Player", logs_65)]

/-- One-player table realizing a 55% over percentage. -/
def table_55 : List (String × List GameLog) := [("Test Player", logs_55)]

/-- The report computed by the calculate_prop_value branch on `table_65`
at line 249.5 with the default book odds -110 (over edge
65 - 1100/21 = 265/21 ≈ +12.6). -/
def report_65 : PropReport :=
  { player := "Test Player", stat_type := "pass_yds", line := 249.5
    book_odds := -110, is_injured := false
    stats := { values := List.replicate 13 300 ++ List.replicate 7 200
               games := 20, avg := 265, over_count := 13, under_count := 7
               over_pct := 65, under_pct := 35
               over_fair_odds := some (-186), under_fair_odds := some 186 }
    book_implied := 1100 / 21, over_edge := 265 / 21, under_edge := -365 / 21 }

/-- Two-player table with the injured player and one value player. -/
def fv_table : List (String × List GameLog) :=
  [("Zach Charbonnet", charbonnet_logs), ("Test Player", rush_logs_5)]

/-- The listing produced by `find_value_props fv_table "rush_yds" 10`:
one OVER entry per candidate line, all for the healthy player. -/
def fv_listing : List ValueProp :=
  [(39.5 : ℚ), 49.5, 59.5, 69.5, 79.5].map fun l =>
    { player := "Test Player", stat := "rush_yds", line := l, side := "OVER"
      hit_rate := 100, edge := 1000 / 21, fair_odds := none, games := 5, avg := 100 }

/-- The first entry of `fv_listing`. -/
def fv_entry : ValueProp :=
  { player := "Test Player", stat := "rush_yds", line := 39.5, side := "OVER"
    hit_rate := 100, edge := 1000 / 21, fair_odds := none, games := 5, avg := 100 }

/-- The report computed by the calculate_prop_value branch for the
injured player at line 39.5 with book odds -110. -/
def charb_report : PropReport :=
  { player := "Zach Charbonnet", stat_type := "rush_yds", line := 39.5
    book_odds := -110, is_injured := true
    stats := { values := [50], games := 1, avg := 50, over_count := 1
               under_count := 0, over_pct := 100, under_pct := 0
               over_fair_odds := none, under_fair_odds := none }
    book_implied := 1100 / 21, over_edge := 1000 / 21, under_edge := -1100 / 21 }

/-! # Claim theorems -/

attribute [local semireducible] Rat.add Rat.mul Rat.sub Rat.inv Rat.ofScientific

/-- C7 (amended): `american_to_prob` returns `|odds| / (|odds| + 100)`
for negative odds and `100 / (odds + 100)` for non-negative odds; the
result lies in the open interval (0,1) for every nonzero odds, while at
`odds = 0` it equals exactly 1 (outside the open interval). -/
theorem american_to_prob_range :
    (∀ odds : ℤ, odds < 0 →
      american_to_prob odds = |(odds : ℚ)| / (|(odds : ℚ)| + 100)) ∧
    (∀ odds : ℤ, 0 ≤ odds → american_to_prob odds = 100 / ((odds : ℚ) + 100)) ∧
    (∀ odds : ℤ, odds ≠ 0 →
      0 < american_to_prob odds ∧ american_to_prob odds < 1) ∧
    american_to_prob 0 = 1 := by
  refine ⟨?_, ?_, ?_, by norm_num [american_to_prob]⟩
  · intro odds h
    simp [american_to_prob, h]
  · intro odds h
    rw [american_to_prob, if_neg (by omega)]
  · intro odds h
    rcases lt_or_gt_of_ne h with hneg | hpos
    · rw [american_to_prob, if_pos hneg]
      have h1 : (0 : ℚ) < |(odds : ℚ)| := by
        rw [abs_pos]
        exact_mod_cast hneg.ne
      refine ⟨div_pos h1 (by linarith), ?_⟩
      rw [div_lt_one (by linarith)]
      linarith
    · rw [american_to_prob, if_neg (by omega)]
      have h1 : (0 : ℚ) < (odds : ℚ) := by exact_mod_cast hpos
      refine ⟨by positivity, ?_⟩
      rw [div_lt_one (by linarith)]
      linarith

/-- C7 counterexample: at odds = 0 (the non-negative branch) the
function returns exactly 1, which is not in the open interval (0,1)
the claim asserts for every integer odds. -/
theorem american_to_prob_zero_not_in_unit :
    american_to_prob 0 = 1 ∧ ¬ american_to_prob 0 < 1 := by
  norm_num [american_to_prob]

/-- Witness for C7 at odds = -110. -/
theorem american_to_prob_range_witness :
    0 < american_to_prob (-110) ∧ american_to_prob (-110) < 1 :=
  american_to_prob_range.2.2.1 (-110) (by decide)

/-- C8: `prob_to_american` returns the `None` sentinel exactly when
p ≤ 0 or p ≥ 1 (in particular at p = 0 and p = 1, without raising and
without returning a number), and otherwise `round(-100*p/(1-p))` for
p ≥ 0.5 and `round(100*(1-p)/p)` for p < 0.5. -/
theorem prob_to_american_boundaries :
    (∀ p : ℚ, prob_to_american p = none ↔ p ≤ 0 ∨ 1 ≤ p) ∧
    (∀ p : ℚ, 0 < p → p < 1 → 1/2 ≤ p →
      prob_to_american p = some (pyRound (-100 * p / (1 - p)))) ∧
    (∀ p : ℚ, 0 < p → p < 1/2 →
      prob_to_american p = some (pyRound (100 * (1 - p) / p))) ∧
    prob_to_american 0 = none ∧ prob_to_american 1 = none := by
  refine ⟨?_, ?_, ?_, by decide, by decide⟩
  · intro p
    unfold prob_to_american
    split_ifs with h1 h2 h3
    · simp [h1]
    · simp [h2]
    · simp only [reduceCtorEq, false_iff]
      push_neg
      exact ⟨by linarith [not_le.mp h1], by linarith [not_le.mp h2]⟩
    · simp only [reduceCtorEq, false_iff]
      push_neg
      exact ⟨by linarith [not_le.mp h1], by linarith [not_le.mp h2]⟩
  · intro p h0 h1 hhalf
    unfold prob_to_american
    rw [if_neg (by linarith), if_neg (by linarith), if_pos hhalf]
  · intro p h0 hhalf
    unfold prob_to_american
    rw [if_neg (by linarith), if_neg (by linarith), if_neg (by linarith)]

/-- Witness for C8 at p = 3/4 and p = 1/4. -/
theorem prob_to_american_boundaries_witness :
    prob_to_american (3/4) = some (pyRound (-100 * (3/4) / (1 - 3/4))) ∧
    prob_to_american (1/4) = some (pyRound (100 * (1 - 1/4) / (1/4))) :=
  ⟨prob_to_american_boundaries.2.1 (3/4) (by decide) (by decide) (by decide),
   prob_to_american_boundaries.2.2.1 (1/4) (by decide) (by decide)⟩

/-- C6 (code bug): with no extractable values (`"Sam Darnold"` has no
`'rec'` entry in any game; `"foobar"` is outside the recognized stat
set) the calculate_prop_value branch does not return the
"No ... data found" message: `calculate_hit_rate` returns the 4-tuple
`(None, None, None, None)`, the guard `analysis is None` is False, and
`analysis["games"]` raises an uncaught `TypeError`. -/
theorem no_data_raises_typeerror :
    calculate_prop_value [("Sam Darnold", sam_darnold_logs)] "sam darnold"
      "rec_yds" (99/2) (-110) = .typeError ∧
    calculate_prop_value [("Sam Darnold", sam_darnold_logs)] "sam darnold"
      "foobar" (99/2) (-110) = .typeError ∧
    calculate_hit_rate sam_darnold_logs "rec_yds" (99/2) = .noData :=
  ⟨by decide, by decide, by decide⟩

/-- Helper for C5: while the model keeps requesting tools, the loop
never exits, whatever the iteration budget. -/
theorem tool_loop_always_tool_eq_none :
    ∀ fuel i, tool_loop always_tool_model i fuel = none := by
  intro fuel
  induction fuel with
  | zero => intro i; rfl
  | succ n ih =>
    intro i
    simpa [tool_loop, always_tool_model] using ih (i + 1)

/-- Helper for C5: if the model requests tools on the first `k` calls
and stops at call `k`, the loop returns that response. -/
theorem tool_loop_reaches :
    ∀ (model : Nat → StopReason) (k s : Nat),
      (∀ d, d < k → model (s + d) = .tool_use) → model (s + k) = .end_turn →
      tool_loop model s (k + 1) = some (s + k) := by
  intro model k
  induction k with
  | zero =>
    intro s _ he
    simp only [Nat.add_zero] at he
    simp [tool_loop, he]
  | succ n ih =>
    intro s h he
    have h0 : model s = .tool_use := by simpa using h 0 (Nat.succ_pos n)
    have hrec : tool_loop model (s + 1) (n + 1) = some ((s + 1) + n) := by
      refine ih (s + 1) (fun d hd => ?_) ?_
      · have := h (d + 1) (by omega)
        have harg : s + (d + 1) = (s + 1) + d := by omega
        rwa [harg] at this
      · have harg : s + (n + 1) = (s + 1) + n := by omega
        rwa [harg] at he
    have hres : (s + 1) + n = s + (n + 1) := by omega
    rw [hres] at hrec
    have hstep : tool_loop model s (n + 1 + 1) =
        (match model s with
          | StopReason.end_turn => some s
          | StopReason.tool_use => tool_loop model (s + 1) (n + 1)) := rfl
    rw [hstep, h0, hrec]

/-- C5 counterexample: the `while response.stop_reason == "tool_use"`
loop of do_POST has no configured maximum — with a model that requests a
tool on every turn it is still running after 1000 iterations and has
returned no "could not complete" error. -/
theorem tool_loop_no_cap_counterexample :
    tool_loop always_tool_model 0 1000 = none :=
  tool_loop_always_tool_eq_none 1000 0

/-- C5 (amended): the do_POST loop has no iteration cap: it terminates
exactly when the model's response stops being `tool_use` — with an
always-tool model it is still running after every finite budget, and it
returns the model's response `k` as soon as the model stops requesting
tools at call `k`. -/
theorem tool_loop_unbounded :
    (∀ fuel i, tool_loop always_tool_model i fuel = none) ∧
    (∀ (model : Nat → StopReason) (fuel i j : Nat),
      tool_loop model i fuel = some j → model j = .end_turn) ∧
    (∀ (model : Nat → StopReason) (k : Nat),
      (∀ i, i < k → model i = .tool_use) → model k = .end_turn →
      tool_loop model 0 (k + 1) = some k) := by
  refine ⟨tool_loop_always_tool_eq_none, ?_, ?_⟩
  · intro model fuel
    induction fuel with
    | zero => intro i j h; cases h
    | succ n ih =>
      intro i j h
      by_cases hm : model i = .end_turn
      · simp only [tool_loop, hm] at h
        cases h
        exact hm
      · have hm' : model i = .tool_use := by
          cases hmi : model i
          · rfl
          · exact absurd hmi hm
        simp only [tool_loop, hm'] at h
        exact ih (i + 1) j h
  · intro model k h he
    simpa using tool_loop_reaches model k 0 (fun d hd => by simpa using h d hd)
      (by simpa using he)

/-- Witness for C5 at a model that answers immediately. -/
theorem tool_loop_unbounded_witness :
    tool_loop (fun _ => StopReason.end_turn) 0 1 = some 0 :=
  tool_loop_unbounded.2.2 (fun _ => StopReason.end_turn) 0
    (fun i hi => absurd hi (Nat.not_lt_zero i)) rfl

/-- C10: `get_super_bowl_event` always returns a truthy (non-empty)
dict — a matched event must contain non-empty team names, and both the
fetch-failure and no-matchup paths return the hardcoded fallback, which
carries `"id"` — so the `if not event` "Unable to find Super Bowl event"
branch of execute_tool is unreachable; if every fetched event carries an
`"id"` key (the documented odds-API event shape), so does the result. -/
theorem super_bowl_event_always_found :
    ∀ res : EventsResult,
      dictIsEmpty (get_super_bowl_event res) = false ∧
      sb_event_guard res = none ∧
      ((∀ e ∈ events_of res, hasKey e "id" = true) →
        hasKey (get_super_bowl_event res) "id" = true) := by
  have hmatch_ne : ∀ e : PyDict, sb_team_match e = true → dictIsEmpty e = false := by
    intro e he
    match e with
    | [] => exact absurd he (by decide)
    | kv :: t => rfl
  intro res
  have hne : dictIsEmpty (get_super_bowl_event res) = false := by
    cases res with
    | errorDict m => rfl
    | events l =>
      cases hf : l.find? sb_team_match with
      | none => simp [get_super_bowl_event, hf]; decide
      | some e =>
        have hm := List.find?_some hf
        simpa [get_super_bowl_event, hf] using hmatch_ne e hm
  refine ⟨hne, ?_, ?_⟩
  · simp [sb_event_guard, hne]
  · intro hid
    cases res with
    | errorDict m => rfl
    | events l =>
      cases hf : l.find? sb_team_match with
      | none => simp [get_super_bowl_event, hf]; decide
      | some e =>
        have hmem := List.mem_of_find?_eq_some hf
        simpa [get_super_bowl_event, hf] using hid e hmem

/-- Witness for C10 on a failed events fetch. -/
theorem super_bowl_event_always_found_witness :
    hasKey (get_super_bowl_event (.errorDict "connection error")) "id" = true :=
  (super_bowl_event_always_found (.errorDict "connection error")).2.2
    (fun e he => absurd he (List.not_mem_nil e))

/-- C1 counterexample: on the spec's own example (game values
`[200, 250, 300, 180, 400]`, line 249.5) the code counts 3 values
strictly over the line (250, 300 and 400 all exceed 249.5), not the 2
the claim states. -/
theorem hit_rate_spec_example_overcount :
    over_count_of (calculate_hit_rate example_logs "pass_yds" (249.5 : ℚ)) = some 3 ∧
    ¬ over_count_of (calculate_hit_rate example_logs "pass_yds" (249.5 : ℚ)) = some 2 :=
  ⟨by decide, by decide⟩

/-- C1 (amended): `calculate_hit_rate` extracts the stat only from games
where that stat category is present (absent categories yield no value,
never zero), counts `over_count` as the values strictly greater than the
line, sets `under_count` to the remaining values, and reports `avg` as
the arithmetic mean rounded to one decimal; for game values
`[200, 250, 300, 180, 400]` and line 249.5 it yields
`over_count = 3`, `under_count = 2`, `avg = 266.0`. -/
theorem hit_rate_correctness :
    (∀ (logs : List GameLog) (stat : String) (line : ℚ) (h : HitRate),
      calculate_hit_rate logs stat line = .ok h →
        h.values = logs.filterMap (fun g => parse_player_stat g stat) ∧
        h.games = h.values.length ∧
        h.over_count = h.values.countP (fun v => (v : ℚ) > line) ∧
        h.under_count = h.values.length - h.over_count ∧
        h.avg = round1 (((h.values.sum : ℤ) : ℚ) / (h.values.length : ℚ))) ∧
    (∀ g : GameLog, g.passStat = none →
      parse_player_stat g "pass_yds" = none ∧ parse_player_stat g "pass_tds" = none ∧
      parse_player_stat g "pass_attempts" = none ∧
      parse_player_stat g "completions" = none ∧
      parse_player_stat g "interceptions" = none) ∧
    (∀ g : GameLog, g.rushStat = none →
      parse_player_stat g "rush_yds" = none ∧ parse_player_stat g "rush_att" = none) ∧
    (∀ g : GameLog, g.recStat = none →
      parse_player_stat g "receptions" = none ∧ parse_player_stat g "rec_yds" = none ∧
      parse_player_stat g "targets" = none) ∧
    calculate_hit_rate example_logs "pass_yds" (249.5 : ℚ) = .ok
      { values := [200, 250, 300, 180, 400], games := 5, avg := 266,
        over_count := 3, under_count := 2, over_pct := 60, under_pct := 40,
        over_fair_odds := some (-150), under_fair_odds := some 150 } := by
  refine ⟨?_, ?_, ?_, ?_, by decide⟩
  · intro logs stat line h hok
    simp only [calculate_hit_rate] at hok
    split at hok
    · cases hok
    · cases hok
      exact ⟨rfl, rfl, rfl, rfl, rfl⟩
  · intro g hg
    refine ⟨?_, ?_, ?_, ?_, ?_⟩ <;> simp [parse_player_stat, hg]
  · intro g hg
    refine ⟨?_, ?_⟩ <;> simp [parse_player_stat, hg]
  · intro g hg
    refine ⟨?_, ?_, ?_⟩ <;> simp [parse_player_stat, hg]

/-- C3: the calculate_prop_value branch computes each side's edge as the
side's percentage minus the book's implied probability times 100 (book
odds defaulting to -110 when the tool argument is absent), and
classifies an edge above +5 as "value", below -5 as "bad", and "fair"
otherwise; with book odds -110 (implied 1100/21 ≈ 52.4%) an over
percentage of 65 (edge ≈ +12.6) classifies as value and one of 55
(edge ≈ +2.6) classifies as fair. -/
theorem value_classification :
    (∀ (table : List (String × List GameLog)) (p s : String) (line : ℚ) (b : ℤ)
        (r : PropReport), calculate_prop_value table p s line b = .report r →
      r.book_odds = b ∧
      r.book_implied = american_to_prob b * 100 ∧
      r.over_edge = r.stats.over_pct - r.book_implied ∧
      r.under_edge = r.stats.under_pct - r.book_implied) ∧
    (∀ (table : List (String × List GameLog)) (p s : String) (line : ℚ),
      run_calculate_prop_value table p s line none =
        calculate_prop_value table p s line (-110)) ∧
    (∀ e : ℚ, classify_edge e = .value ↔ 5 < e) ∧
    (∀ e : ℚ, classify_edge e = .bad ↔ e < -5) ∧
    (∀ e : ℚ, classify_edge e = .fair ↔ -5 ≤ e ∧ e ≤ 5) ∧
    american_to_prob (-110) * 100 = 1100 / 21 ∧
    classify_edge (65 - american_to_prob (-110) * 100) = .value ∧
    classify_edge (55 - american_to_prob (-110) * 100) = .fair ∧
    over_class_of (run_calculate_prop_value table_65 "test player" "pass_yds"
      (249.5 : ℚ) none) = some .value ∧
    over_class_of (run_calculate_prop_value table_55 "test player" "pass_yds"
      (249.5 : ℚ) none) = some .fair := by
  refine ⟨?_, fun _ _ _ _ => rfl, ?_, ?_, ?_,
    by decide, by decide, by decide, by decide, by decide⟩
  · intro table p s line b r hok
    simp only [calculate_prop_value] at hok
    split at hok
    · cases hok
    · split at hok
      · cases hok
      · split at hok
        · cases hok
        · cases hok
          exact ⟨rfl, rfl, rfl, rfl⟩
  · intro e
    unfold classify_edge
    split_ifs with h1 h2
    · simp [h1]
    · simp only [reduceCtorEq, false_iff]
      intro hc
      linarith
    · simp only [reduceCtorEq, false_iff]
      exact h1
  · intro e
    unfold classify_edge
    split_ifs with h1 h2
    · simp only [reduceCtorEq, false_iff]
      intro hc
      linarith
    · simp [h2]
    · simp only [reduceCtorEq, false_iff]
      exact h2
  · intro e
    unfold classify_edge
    split_ifs with h1 h2
    · simp only [reduceCtorEq, false_iff]
      intro hc
      linarith [hc.2]
    · simp only [reduceCtorEq, false_iff]
      intro hc
      linarith [hc.1]
    · simp only [true_iff]
      exact ⟨by linarith [not_lt.mp h2], by linarith [not_lt.mp h1]⟩

/-- Witness for C3 on the 65%-over table with explicit book odds -110. -/
theorem value_classification_witness :
    report_65.book_odds = -110 ∧
    report_65.book_implied = american_to_prob (-110) * 100 ∧
    report_65.over_edge = report_65.stats.over_pct - report_65.book_implied ∧
    report_65.under_edge = report_65.stats.under_pct - report_65.book_implied :=
  value_classification.1 table_65 "test player" "pass_yds" (249.5 : ℚ) (-110)
    report_65 (by decide)

/-- Witness for C1 on the spec's example input. -/
theorem hit_rate_correctness_witness :
    { values := [200, 250, 300, 180, 400], games := 5, avg := (266 : ℚ),
      over_count := 3, under_count := 2, over_pct := 60, under_pct := 40,
      over_fair_odds := some (-150),
      under_fair_odds := some 150 : HitRate }.over_count =
      [(200 : Int), 250, 300, 180, 400].countP (fun v => (v : ℚ) > (249.5 : ℚ)) :=
  (hit_rate_correctness.1 example_logs "pass_yds" (249.5 : ℚ) _ (by decide)).2.2.1

/-- Helper for C4/C9: every entry produced by the innermost scan loop
belongs to the scanned player and stat, has a line from the scanned
list, and is backed by an analysis with at least 5 games. -/
theorem scan_lines_invariant :
    ∀ (pn : String) (logs : List GameLog) (stat : String) (me bi : ℚ)
      (ls : List ℚ) (ps : List ValueProp),
      scan_lines pn logs stat me bi ls = .ok ps →
      ∀ vp ∈ ps, vp.player = pn ∧ vp.stat = stat ∧ vp.line ∈ ls ∧
        ∃ a, calculate_hit_rate logs stat vp.line = .ok a ∧
          a.games = vp.games ∧ 5 ≤ a.games := by
  intro pn logs stat me bi ls
  induction ls with
  | nil =>
    intro ps h vp hvp
    cases h
    cases hvp
  | cons line rest ih =>
    intro ps h vp hvp
    simp only [scan_lines] at h
    cases hca : calculate_hit_rate logs stat line with
    | noData =>
      rw [hca] at h
      dsimp only at h
      cases h
    | ok analysis =>
      rw [hca] at h
      dsimp only at h
      by_cases hg : analysis.games < 5
      · rw [if_pos hg] at h
        obtain ⟨hp, hs, hl, hex⟩ := ih ps h vp hvp
        exact ⟨hp, hs, List.mem_cons_of_mem _ hl, hex⟩
      · rw [if_neg hg] at h
        cases hrec : scan_lines pn logs stat me bi rest with
        | error e =>
          rw [hrec] at h
          cases h
        | ok restProps =>
          rw [hrec] at h
          simp only [Except.map] at h
          cases h
          rcases List.mem_append.mp hvp with hin | hin
          · rcases List.mem_append.mp hin with h1 | h1 <;> split at h1 <;>
              simp only [List.mem_singleton, List.not_mem_nil] at h1 <;>
              first
              | exact absurd h1 (fun hf => hf)
              | (subst h1
                 exact ⟨rfl, rfl, List.mem_cons_self .., analysis, hca, rfl,
                   Nat.le_of_not_lt hg⟩)
          · obtain ⟨hp, hs, hl, hex⟩ := ih restProps hrec vp hin
            exact ⟨hp, hs, List.mem_cons_of_mem _ hl, hex⟩

/-- Helper for C4/C9: the per-player scan over stats keeps the player
name and draws each entry's line from that stat's candidate grid. -/
theorem scan_stats_invariant :
    ∀ (pn : String) (logs : List GameLog) (me bi : ℚ)
      (stats : List String) (ps : List ValueProp),
      scan_stats pn logs me bi stats = .ok ps →
      ∀ vp ∈ ps, vp.player = pn ∧ vp.stat ∈ stats ∧
        vp.line ∈ prop_lines vp.stat ∧
        ∃ a, calculate_hit_rate logs vp.stat vp.line = .ok a ∧
          a.games = vp.games ∧ 5 ≤ a.games := by
  intro pn logs me bi stats
  induction stats with
  | nil =>
    intro ps h vp hvp
    cases h
    cases hvp
  | cons stat rest ih =>
    intro ps h vp hvp
    simp only [scan_stats] at h
    cases hsl : scan_lines pn logs stat me bi (prop_lines stat) with
    | error e =>
      rw [hsl] at h
      cases h
    | ok here =>
      rw [hsl] at h
      simp only [Except.bind] at h
      cases hrec : scan_stats pn logs me bi rest with
      | error e =>
        rw [hrec] at h
        cases h
      | ok restProps =>
        rw [hrec] at h
        simp only [Except.map] at h
        cases h
        rcases List.mem_append.mp hvp with hin | hin
        · obtain ⟨hp, hs, hl, hex⟩ :=
            scan_lines_invariant pn logs stat me bi _ _ hsl vp hin
          subst hs
          exact ⟨hp, List.mem_cons_self .., hl, hex⟩
        · obtain ⟨hp, hs, hl, hex⟩ := ih restProps hrec vp hin
          exact ⟨hp, List.mem_cons_of_mem _ hs, hl, hex⟩

/-- Helper for C4/C9: the full scan never emits an entry for an injured
player, and every entry is backed by at least five extracted games from
that player's logs at a grid line. -/
theorem scan_players_invariant :
    ∀ (stats : List String) (me bi : ℚ)
      (table : List (String × List GameLog)) (ps : List ValueProp),
      scan_players stats me bi table = .ok ps →
      ∀ vp ∈ ps,
        INJURED_PLAYER_NAMES.contains (pyLower vp.player) = false ∧
        vp.stat ∈ stats ∧ vp.line ∈ prop_lines vp.stat ∧
        ∃ logs a, (vp.player, logs) ∈ table ∧
          calculate_hit_rate logs vp.stat vp.line = .ok a ∧
          a.games = vp.games ∧ 5 ≤ a.games := by
  intro stats me bi table
  induction table with
  | nil =>
    intro ps h vp hvp
    cases h
    cases hvp
  | cons entry rest ih =>
    obtain ⟨pn, logs⟩ := entry
    intro ps h vp hvp
    simp only [scan_players] at h
    by_cases hinj : INJURED_PLAYER_NAMES.contains (pyLower pn) = true
    · rw [if_pos hinj] at h
      obtain ⟨h1, h2, h3, logs', a, h4, h5, h6⟩ := ih ps h vp hvp
      exact ⟨h1, h2, h3, logs', a, List.mem_cons_of_mem _ h4, h5, h6⟩
    · rw [if_neg hinj] at h
      cases hss : scan_stats pn logs me bi stats with
      | error e =>
        rw [hss] at h
        cases h
      | ok here =>
        rw [hss] at h
        simp only [Except.bind] at h
        cases hrec : scan_players stats me bi rest with
        | error e =>
          rw [hrec] at h
          cases h
        | ok restProps =>
          rw [hrec] at h
          simp only [Except.map] at h
          cases h
          rcases List.mem_append.mp hvp with hin | hin
          · obtain ⟨hp, hs, hl, a, ha, hg, h5⟩ :=
              scan_stats_invariant pn logs me bi _ _ hss vp hin
            subst hp
            refine ⟨Bool.not_eq_true _ |>.mp hinj, hs, hl, logs, a,
              List.mem_cons_self .., ha, hg, h5⟩
          · obtain ⟨h1, h2, h3, logs', a, h4, h5, h6⟩ := ih restProps hrec vp hin
            exact ⟨h1, h2, h3, logs', a, List.mem_cons_of_mem _ h4, h5, h6⟩

/-- C4: the calculate_prop_value branch marks a report as injured exactly
when the matched player's lower-cased name is in the injury exclusion
set, an injured report's rendered output carries the explicit
out/do-not-bet warning line regardless of the computed edge, and no
player of the injury exclusion set ever appears in a find_value_props
listing. -/
theorem injury_suppression :
    (∀ (table : List (String × List GameLog)) (p s : String) (line : ℚ)
        (b : ℤ) (r : PropReport),
      calculate_prop_value table p s line b = .report r →
      r.is_injured = INJURED_PLAYER_NAMES.contains (pyLower r.player)) ∧
    (∀ (table : List (String × List GameLog)) (p s : String) (line : ℚ)
        (b : ℤ) (r : PropReport),
      calculate_prop_value table p s line b = .report r →
      INJURED_PLAYER_NAMES.contains (pyLower r.player) = true →
      warning_line ∈ format_prop_value r) ∧
    (∀ (table : List (String × List GameLog)) (st : String) (me : ℚ)
        (props : List ValueProp),
      find_value_props table st me = .listing props →
      ∀ vp ∈ props,
        INJURED_PLAYER_NAMES.contains (pyLower vp.player) = false) := by
  have hfield : ∀ (table : List (String × List GameLog)) (p s : String)
      (line : ℚ) (b : ℤ) (r : PropReport),
      calculate_prop_value table p s line b = .report r →
      r.is_injured = INJURED_PLAYER_NAMES.contains (pyLower r.player) := by
    intro table p s line b r hok
    simp only [calculate_prop_value] at hok
    split at hok
    · cases hok
    · split at hok
      · cases hok
      · split at hok
        · cases hok
        · cases hok
          rfl
  refine ⟨hfield, ?_, ?_⟩
  · intro table p s line b r hok hinj
    have h1 := hfield table p s line b r hok
    rw [hinj] at h1
    simp [format_prop_value, h1]
  · intro table st me props hls vp hvp
    simp only [find_value_props] at hls
    split at hls
    · cases hls
    · split at hls
      · cases hls
      · rename_i vps heq
        cases hls
        exact (scan_players_invariant _ _ _ _ _ heq vp
          ((List.perm_insertionSort _ vps).mem_iff.mp hvp)).1

/-- Witness for C4: the injured player's report renders the warning, and
the concrete scan lists only the healthy player. -/
theorem injury_suppression_witness :
    warning_line ∈ format_prop_value charb_report ∧
    INJURED_PLAYER_NAMES.contains (pyLower fv_entry.player) = false :=
  ⟨injury_suppression.2.1 [("Zach Charbonnet", charbonnet_logs)] "zach charbonnet"
      "rush_yds" (39.5 : ℚ) (-110) charb_report (by decide) (by decide),
   injury_suppression.2.2 fv_table "rush_yds" 10 fv_listing (by decide)
      fv_entry (by decide)⟩

/-- C9: every prop in a find_value_props listing is backed by at least 5
extracted games of that player's historical data for that stat, and its
line is drawn from the hardcoded candidate-line grid for that stat;
props with fewer than 5 (but at least one) extracted games are silently
skipped by the `analysis["games"] < 5` guard. -/
theorem find_value_props_listing_invariants :
    ∀ (table : List (String × List GameLog)) (st : String) (me : ℚ)
      (props : List ValueProp),
      find_value_props table st me = .listing props →
      ∀ vp ∈ props, 5 ≤ vp.games ∧ vp.line ∈ prop_lines vp.stat ∧
        ∃ logs a, (vp.player, logs) ∈ table ∧
          calculate_hit_rate logs vp.stat vp.line = .ok a ∧
          a.games = vp.games := by
  intro table st me props hls vp hvp
  simp only [find_value_props] at hls
  split at hls
  · cases hls
  · split at hls
    · cases hls
    · rename_i vps heq
      cases hls
      obtain ⟨_, _, hl, logs, a, hmem, ha, hg, h5⟩ :=
        scan_players_invariant _ _ _ _ _ heq vp
          ((List.perm_insertionSort _ vps).mem_iff.mp hvp)
      exact ⟨hg ▸ h5, hl, logs, a, hmem, ha, hg⟩

/-- Witness for C9 on the concrete two-player table. -/
theorem find_value_props_listing_invariants_witness :
    5 ≤ fv_entry.games ∧ fv_entry.line ∈ prop_lines fv_entry.stat :=
  ⟨(find_value_props_listing_invariants fv_table "rush_yds" 10 fv_listing
      (by decide) fv_entry (by decide)).1,
   (find_value_props_listing_invariants fv_table "rush_yds" 10 fv_listing
      (by decide) fv_entry (by decide)).2.1⟩

/-- Helper for C2: Python's round is within 1/2 of its argument. -/
theorem pyRound_sub_abs_le (q : ℚ) : |(pyRound q : ℚ) - q| ≤ 1/2 := by
  have h0 : ((⌊q⌋ : ℤ) : ℚ) ≤ q := Int.floor_le q
  have h1 : q < ((⌊q⌋ : ℤ) : ℚ) + 1 := Int.lt_floor_add_one q
  simp only [pyRound]
  split_ifs with h2 h3 h4 <;> rw [abs_le] <;> push_cast <;>
    constructor <;> linarith

/-- C2: for every probability p strictly between 0 and 1 the conversion
to fair American odds succeeds, and converting the resulting odds back
to a probability lands within 0.01 of p (over exact rationals the error
is in fact at most 1/400, so no exclusion near 0 or 1 is needed). -/
theorem round_trip_law :
    (∀ p : ℚ, 0 < p → p < 1 → (prob_to_american p).isSome = true) ∧
    (∀ (p : ℚ) (a : ℤ), 0 < p → p < 1 → prob_to_american p = some a →
      |american_to_prob a - p| ≤ 1/100) := by
  constructor
  · intro p h0 h1
    unfold prob_to_american
    rw [if_neg (by linarith), if_neg (by linarith)]
    split_ifs <;> rfl
  · intro p a h0 h1 hsome
    unfold prob_to_american at hsome
    rw [if_neg (by linarith), if_neg (by linarith)] at hsome
    by_cases hp : 1/2 ≤ p
    · rw [if_pos hp] at hsome
      have h1p : (0 : ℚ) < 1 - p := by linarith
      injection hsome with ha
      have hround := pyRound_sub_abs_le (-100 * p / (1 - p))
      rw [ha] at hround
      have hxneg : -100 * p / (1 - p) = -(100 * p / (1 - p)) := by ring
      rw [hxneg] at hround
      have hy100 : (100 : ℚ) ≤ 100 * p / (1 - p) := by
        rw [le_div_iff₀ h1p]
        nlinarith
      have habs := abs_le.mp hround
      have haq : (a : ℚ) ≤ -(199/2) := by
        have := habs.2
        linarith
      have haZ : a ≤ -100 := by
        by_contra hc
        push_neg at hc
        have hge : (-99 : ℤ) ≤ a := by omega
        have : (-99 : ℚ) ≤ (a : ℚ) := by exact_mod_cast hge
        linarith
      have ha_neg : a < 0 := by omega
      rw [american_to_prob, if_pos ha_neg,
        abs_of_neg (show ((a : ℤ) : ℚ) < 0 by exact_mod_cast ha_neg)]
      have hr100 : (100 : ℚ) ≤ -(a : ℚ) := by
        have hcast : (a : ℚ) ≤ (-100 : ℚ) := by exact_mod_cast haZ
        linarith
      have hdenom : (0 : ℚ) < -(a : ℚ) + 100 := by linarith
      have hry : |(-(a : ℚ)) - 100 * p / (1 - p)| ≤ 1/2 := by
        have hneg : (-(a : ℚ)) - 100 * p / (1 - p) =
            -((a : ℚ) + 100 * p / (1 - p)) := by ring
        rw [hneg, abs_neg]
        rw [abs_le] at hround ⊢
        constructor <;> linarith [hround.1, hround.2]
      have hid : (-(a : ℚ)) - 100 * p / (1 - p) =
          ((-(a : ℚ)) * (1 - p) - 100 * p) / (1 - p) := by
        field_simp
      rw [hid, abs_div, abs_of_pos h1p] at hry
      have hN : |(-(a : ℚ)) * (1 - p) - 100 * p| ≤ 1/2 := by
        have hle := (div_le_iff₀ h1p).mp hry
        nlinarith [hle, abs_nonneg ((-(a : ℚ)) * (1 - p) - 100 * p)]
      have hdiff : (-(a : ℚ)) / (-(a : ℚ) + 100) - p =
          ((-(a : ℚ)) * (1 - p) - 100 * p) / (-(a : ℚ) + 100) := by
        field_simp
        ring
      rw [hdiff, abs_div, abs_of_pos hdenom]
      have hfinal : |(-(a : ℚ)) * (1 - p) - 100 * p| / (-(a : ℚ) + 100) ≤
          (1/2) / 200 :=
        div_le_div₀ (by norm_num) hN (by norm_num) (by linarith)
      calc |(-(a : ℚ)) * (1 - p) - 100 * p| / (-(a : ℚ) + 100)
          ≤ (1/2) / 200 := hfinal
        _ ≤ 1/100 := by norm_num
    · rw [if_neg hp] at hsome
      push_neg at hp
      injection hsome with ha
      have hround := pyRound_sub_abs_le (100 * (1 - p) / p)
      rw [ha] at hround
      have hy100 : (100 : ℚ) ≤ 100 * (1 - p) / p := by
        rw [le_div_iff₀ h0]
        nlinarith
      have habs := abs_le.mp hround
      have haq : (199/2 : ℚ) ≤ (a : ℚ) := by
        have := habs.1
        linarith
      have haZ : (100 : ℤ) ≤ a := by
        by_contra hc
        push_neg at hc
        have hle : a ≤ (99 : ℤ) := by omega
        have : (a : ℚ) ≤ (99 : ℚ) := by exact_mod_cast hle
        linarith
      have ha_nonneg : ¬ a < 0 := by omega
      rw [american_to_prob, if_neg ha_nonneg]
      have hr100 : (100 : ℚ) ≤ (a : ℚ) := by exact_mod_cast haZ
      have hdenom : (0 : ℚ) < (a : ℚ) + 100 := by linarith
      have hry : |(a : ℚ) - 100 * (1 - p) / p| ≤ 1/2 := hround
      have hid : (a : ℚ) - 100 * (1 - p) / p =
          ((a : ℚ) * p - 100 * (1 - p)) / p := by
        field_simp
      rw [hid, abs_div, abs_of_pos h0] at hry
      have hN : |(a : ℚ) * p - 100 * (1 - p)| ≤ 1/2 := by
        have hle := (div_le_iff₀ h0).mp hry
        nlinarith [hle, abs_nonneg ((a : ℚ) * p - 100 * (1 - p))]
      have hdiff : (100 : ℚ) / ((a : ℚ) + 100) - p =
          (100 * (1 - p) - (a : ℚ) * p) / ((a : ℚ) + 100) := by
        field_simp
        ring
      rw [hdiff, abs_div, abs_of_pos hdenom]
      have hNflip : |100 * (1 - p) - (a : ℚ) * p| ≤ 1/2 := by
        rw [abs_sub_comm] at hN
        exact hN
      have hfinal : |100 * (1 - p) - (a : ℚ) * p| / ((a : ℚ) + 100) ≤
          (1/2) / 200 :=
        div_le_div₀ (by norm_num) hNflip (by norm_num) (by linarith)
      calc |100 * (1 - p) - (a : ℚ) * p| / ((a : ℚ) + 100)
          ≤ (1/2) / 200 := hfinal
        _ ≤ 1/100 := by norm_num

/-- Witness for C2 at p = 3/4 (odds -300, exact round trip). -/
theorem round_trip_law_witness :
    |american_to_prob (-300) - (3/4 : ℚ)| ≤ 1/100 :=
  round_trip_law.2 (3/4) (-300) (by decide) (by decide) (by decide)

end BettorDay
